import Mathlib

/-!
# Verification of the fontconfig-parser core

A shallow embedding of the repository's three source files
(`src/types/document.rs`, `src/lib.rs`, `src/parser.rs`) together with
spec-modelled stand-ins for the parts of the crate whose sources are not
present (the `types` module with `Value` / `PropertyKind` / `make_property`
and the operator-family enums, the `util` module's attribute coercion, and
the path-resolution helpers), plus theorems settling the frozen claims.

Conventions:
* Rust `Result<T, Error>` becomes `Except Error T` (or `PRes T` where a code
  path can also panic: `todo!` and `Option::unwrap` panics are modelled by an
  explicit `PRes.crash` constructor).
* The streaming parser's `quick_xml::Reader` is modelled as a list of
  already-decoded XML events; the reader primitives `read_event`,
  `read_text`, `read_to_end` are translated from quick-xml 0.22's documented
  behaviour (the spec treats the XML layer as a black box producing events).
* Filesystem access in the merge engine is modelled as a finite association
  list from paths to entries; reading-and-parsing a file is collapsed into
  the entry carrying the `parse_config` fragment list, since `parse_config`
  itself is not among the provided sources.
* Rust `f64` is modelled opaquely by its source text (`DoubleV`): no claim
  depends on floating-point arithmetic, only on which texts parse.
* `std::collections::BinaryHeap` (used by `FontConfig::include`) is modelled
  by its actual `std` semantics: `FromIterator` heapifies the collected
  vector with Floyd's `sift_down` rebuild, and `IntoIterator` yields the
  underlying vector in its internal (heap-array) order.
-/

/-! ## Byte-lexicographic string order

Rust compares `PathBuf`s component-wise by `OsStr` bytes; for the
single-directory entry paths that `include` builds this is byte-lexicographic
comparison, which for ASCII names coincides with char-by-char comparison. -/

def lexLt : List Char → List Char → Bool
  | [], [] => false
  | [], _ :: _ => true
  | _ :: _, [] => false
  | a :: as, b :: bs =>
    if a.val < b.val then true
    else if b.val < a.val then false
    else lexLt as bs

def strLt (a b : String) : Bool := lexLt a.data b.data

/-! ## `std::collections::BinaryHeap` (max-heap) as used by `FontConfig::include`

`collect::<BinaryHeap<_>>()` builds the vector in iterator order and then
rebuilds: `let mut n = len / 2; while n > 0 { n -= 1; self.sift_down(n); }`.
Iterating the heap with `for _ in heap` uses `BinaryHeap::into_iter`, which
yields the *underlying vector* in its internal order ("in arbitrary order"
per the std documentation), not in sorted order. -/

def heapGet (a : List String) (i : Nat) : String := a.getD i ""

def heapSwap (a : List String) (i j : Nat) : List String :=
  (a.set i (heapGet a j)).set j (heapGet a i)

/-- Rust `BinaryHeap::sift_down_range(pos, end)` with `end = a.length`,
expressed with swaps (equivalent to the hole optimisation). `fuel` only
drives termination; `a.length` is always enough since `pos` strictly grows. -/
def siftDown (a : List String) (pos : Nat) (fuel : Nat) : List String :=
  match fuel with
  | 0 => a
  | fuel + 1 =>
    let en := a.length
    let child := 2 * pos + 1
    if child < en - 1 then
      -- child += (get(child) <= get(child+1)); ties pick the right child
      let child := if strLt (heapGet a (child + 1)) (heapGet a child) then child else child + 1
      -- if element >= get(child) we are in order: stop
      if strLt (heapGet a pos) (heapGet a child) then
        siftDown (heapSwap a pos child) child fuel
      else a
    else if child = en - 1 then
      if strLt (heapGet a pos) (heapGet a child) then heapSwap a pos child else a
    else a

/-- Rust `BinaryHeap::rebuild`: sift down at indices `len/2 - 1, …, 0`. -/
def heapifyFrom (a : List String) : Nat → List String
  | 0 => a
  | n + 1 => heapifyFrom (siftDown a n a.length) n

def heapify (a : List String) : List String := heapifyFrom a (a.length / 2)

/-- The order in which `FontConfig::include` visits a directory's entry
paths: the collected vector (in filesystem enumeration order) is heapified
and then iterated in the heap's internal array order. -/
def includeDirOrder (entries : List String) : List String := heapify entries

/-- Spec-side definition: the deterministic name-sorted (ascending) order the
spec requires for directory includes (insertion sort by byte order). -/
def insertByName (x : String) : List String → List String
  | [] => [x]
  | y :: ys => if strLt y x then y :: insertByName x ys else x :: y :: ys

def sortNames : List String → List String
  | [] => []
  | x :: xs => insertByName x (sortNames xs)

/-! ## Spec-modelled closed enums

The crate's `types` module (and `util`'s attribute coercion) is not among the
provided sources; these enums and their `FromStr`-style parsers are modelled
from the spec (§3, §4.3): unknown enum text fails with the strum
"Unknown variant" error carrying the raw text. -/

/-- Modelled from the spec: the test qualifier enum (§3 Test, any/all/first/not_first). -/
inductive TestQual where
  | any | all | first | notFirst
deriving DecidableEq, Repr

/-- Modelled from the spec: the property-reference target discriminator
(§3 Value, pattern/font/default). -/
inductive PropertyTarget where
  | pattern | font | default
deriving DecidableEq, Repr

/-- Modelled from the spec: the match target discriminator (§3 Match; the
value set is not enumerated by the spec, the conventional pattern/font/scan
set is used). -/
inductive MatchTarget where
  | pattern | font | scan
deriving DecidableEq, Repr

/-- Modelled from the spec: the test comparator enum (§3 Test,
eq/not_eq/less/less_eq/more/more_eq/contains/not_contains). -/
inductive CompareOp where
  | eq | notEq | less | lessEq | more | moreEq | contains | notContains
deriving DecidableEq, Repr

/-- Modelled from the spec: the edit mode enum (§3 Edit). -/
inductive EditMode where
  | assign | assignReplace | prepend | append | prependFirst | appendLast | delete
deriving DecidableEq, Repr

/-- Modelled from the spec: the edit binding enum (§3 Edit, weak/strong/same). -/
inductive EditBinding where
  | weak | strong | same
deriving DecidableEq, Repr

/-- Modelled from the spec: the path-prefix discriminator
(§4.7, default/cwd/relative/xdg). -/
inductive PrefixKind where
  | default | cwd | relative | xdg
deriving DecidableEq, Repr

/-- Modelled from the spec: a representative closed set of recognized
property names (§3 PropertyKind: family, style, size, weight, slant, hinting
flags, rendering flags). -/
inductive PropertyKind where
  | family | style | size | weight | slant | hintstyle | hinting | antialias
deriving DecidableEq, Repr

/-- Modelled from the spec: the constant families a named constant can belong
to (§4.2: e.g. "a slant constant supplied for a hinting-style property"). -/
inductive ConstantFamily where
  | weight | slant | hintstyle
deriving DecidableEq, Repr

/-- Modelled from the spec: named symbolic constants (§3 Value: "e.g. a
weight or slant name"), a representative closed set. -/
inductive Constant where
  | thin | bold | black
  | roman | italic | oblique
  | hintnone | hintslight | hintfull
deriving DecidableEq, Repr

/-- The constant family each named constant belongs to. -/
def Constant.family : Constant → ConstantFamily
  | .thin | .bold | .black => .weight
  | .roman | .italic | .oblique => .slant
  | .hintnone | .hintslight | .hintfull => .hintstyle

/-- Rust `f64` modelled opaquely by its accepted source text. -/
structure DoubleV where
  lit : String
deriving DecidableEq, Repr

/-- The typed leaf values (§3 Value; `Value::Const` in `lib.rs` and
`Value::Constant` in `parser.rs` are the same constructor mid-rename). -/
inductive Value where
  | string (s : String)
  | double (d : DoubleV)
  | int (n : Int)
  | bool (b : Bool)
  | constant (c : Constant)
  | property (target : PropertyTarget) (kind : PropertyKind)
  -- `Value::Matrix([f64; 4])` in `lib.rs`: a fixed-size array of four doubles
  | matrix4 (m1 m2 m3 m4 : DoubleV)
deriving DecidableEq, Repr

/-- Modelled from the spec: the four disjoint operator families (§3
Expression); the variant sets follow the operator names appearing in the
spec and the repository's parser test fixture. -/
inductive ListOp where
  | times | divide | or | and | plus | minus
deriving DecidableEq, Repr

inductive UnaryOp where
  | not | floor | ceil | round | trunc
deriving DecidableEq, Repr

inductive BinaryOp where
  | eq | notEq | less | lessEq | more | moreEq | contains | notContains
deriving DecidableEq, Repr

inductive TernaryOp where
  | ifElse
deriving DecidableEq, Repr

/-- The expression tree (§3): a leaf value, a matrix node, or an operator
node of one of the four families with an ordered child list. The tree shape
does not enforce operator arity. -/
inductive Expression where
  | simple (v : Value)
  | matrix (args : List Expression)
  | list (op : ListOp) (args : List Expression)
  | unary (op : UnaryOp) (args : List Expression)
  | binary (op : BinaryOp) (args : List Expression)
  | ternary (op : TernaryOp) (args : List Expression)
deriving Repr

/-- A typed property slot: the (kind, value) pair produced by
`make_property` (§3 Property); the payload is an expression so that both the
streaming parser (which supplies a leaf `Value`) and the tree-walk parser
(which supplies a parsed `Expression`) can fill it. -/
structure Property where
  kind : PropertyKind
  value : Expression
deriving Repr

/-- The error enum of `src/lib.rs` (payload-bearing variants keep their
payloads; the wrapped external `quick_xml::Error` keeps the cases this
code distinguishes). -/
inductive XmlErr where
  | unexpectedEof (msg : String)
  | textNotFound
  | io
deriving DecidableEq, Repr

inductive Error where
  | xml (e : XmlErr)
  | unmatchedDocType
  | noFontconfig
  | invalidFormat
  | parseError (raw : String)
  | parseIntError
  | parseFloatError
  | parseBoolError
  | propertyConvertError (kind : PropertyKind) (value : Value)
  | constantPropertyError (kind : PropertyKind) (c : Constant)
deriving DecidableEq, Repr

/-- Result of a code path that can also panic (`todo!`, `Option::unwrap`):
`crash` models a Rust panic; `diverge` is the step-indexing artefact for the
fuel-based loops and is unreachable at every input considered here. -/
inductive PRes (α : Type) where
  | ok (val : α)
  | err (e : Error)
  | crash (msg : String)
  | diverge
deriving Repr

/-! ## Primitive and enum text coercion (§4.3)

The single chokepoint for string-to-typed-field conversion. The enum parsers
are modelled from the spec (the `types`/`util` sources are absent); the
primitive parsers follow Rust's `FromStr` for `bool` and integers (integer
width is not modelled; no claim depends on overflow). -/

def isDigit (c : Char) : Bool := '0' ≤ c ∧ c ≤ '9'

def digitsVal (l : List Char) : Nat :=
  l.foldl (fun acc c => acc * 10 + (c.toNat - '0'.toNat)) 0

def parseIntChars : List Char → Except Error Int
  | [] => .error .parseIntError
  | '-' :: ds =>
    if ds ≠ [] ∧ ds.all isDigit then .ok (-(digitsVal ds : Int)) else .error .parseIntError
  | '+' :: ds =>
    if ds ≠ [] ∧ ds.all isDigit then .ok (digitsVal ds : Int) else .error .parseIntError
  | ds =>
    if ds.all isDigit then .ok (digitsVal ds : Int) else .error .parseIntError

def parseInt (s : String) : Except Error Int := parseIntChars s.data

/-- Rust `str::parse::<bool>` accepts exactly "true" and "false". -/
def parseBool (s : String) : Except Error Bool :=
  if s = "true" then .ok true
  else if s = "false" then .ok false
  else .error .parseBoolError

def isDoubleChar (c : Char) : Bool :=
  isDigit c ∨ c = '.' ∨ c = '-' ∨ c = '+' ∨ c = 'e' ∨ c = 'E'

/-- Rust `str::parse::<f64>` modelled opaquely: a syntactically numeric text
parses to itself as an opaque double literal. -/
def parseDouble (s : String) : Except Error DoubleV :=
  if s ≠ "" ∧ s.data.all isDoubleChar ∧ s.data.any isDigit then .ok ⟨s⟩
  else .error .parseFloatError

def parseTestQual (s : String) : Except Error TestQual :=
  if s = "any" then .ok .any
  else if s = "all" then .ok .all
  else if s = "first" then .ok .first
  else if s = "not_first" then .ok .notFirst
  else .error (.parseError s)

def parsePropertyTarget (s : String) : Except Error PropertyTarget :=
  if s = "pattern" then .ok .pattern
  else if s = "font" then .ok .font
  else if s = "default" then .ok .default
  else .error (.parseError s)

def parseMatchTarget (s : String) : Except Error MatchTarget :=
  if s = "pattern" then .ok .pattern
  else if s = "font" then .ok .font
  else if s = "scan" then .ok .scan
  else .error (.parseError s)

def parseCompareOp (s : String) : Except Error CompareOp :=
  if s = "eq" then .ok .eq
  else if s = "not_eq" then .ok .notEq
  else if s = "less" then .ok .less
  else if s = "less_eq" then .ok .lessEq
  else if s = "more" then .ok .more
  else if s = "more_eq" then .ok .moreEq
  else if s = "contains" then .ok .contains
  else if s = "not_contains" then .ok .notContains
  else .error (.parseError s)

def parseEditMode (s : String) : Except Error EditMode :=
  if s = "assign" then .ok .assign
  else if s = "assign_replace" then .ok .assignReplace
  else if s = "prepend" then .ok .prepend
  else if s = "append" then .ok .append
  else if s = "prepend_first" then .ok .prependFirst
  else if s = "append_last" then .ok .appendLast
  else if s = "delete" then .ok .delete
  else .error (.parseError s)

def parseEditBinding (s : String) : Except Error EditBinding :=
  if s = "weak" then .ok .weak
  else if s = "strong" then .ok .strong
  else if s = "same" then .ok .same
  else .error (.parseError s)

def parsePrefixKind (s : String) : Except Error PrefixKind :=
  if s = "default" then .ok .default
  else if s = "cwd" then .ok .cwd
  else if s = "relative" then .ok .relative
  else if s = "xdg" then .ok .xdg
  else .error (.parseError s)

def parsePropertyKind (s : String) : Except Error PropertyKind :=
  if s = "family" then .ok .family
  else if s = "style" then .ok .style
  else if s = "size" then .ok .size
  else if s = "weight" then .ok .weight
  else if s = "slant" then .ok .slant
  else if s = "hintstyle" then .ok .hintstyle
  else if s = "hinting" then .ok .hinting
  else if s = "antialias" then .ok .antialias
  else .error (.parseError s)

def parseConstant (s : String) : Except Error Constant :=
  if s = "thin" then .ok .thin
  else if s = "bold" then .ok .bold
  else if s = "black" then .ok .black
  else if s = "roman" then .ok .roman
  else if s = "italic" then .ok .italic
  else if s = "oblique" then .ok .oblique
  else if s = "hintnone" then .ok .hintnone
  else if s = "hintslight" then .ok .hintslight
  else if s = "hintfull" then .ok .hintfull
  else .error (.parseError s)

def parseListOp (s : String) : Except Error ListOp :=
  if s = "times" then .ok .times
  else if s = "divide" then .ok .divide
  else if s = "or" then .ok .or
  else if s = "and" then .ok .and
  else if s = "plus" then .ok .plus
  else if s = "minus" then .ok .minus
  else .error (.parseError s)

def parseUnaryOp (s : String) : Except Error UnaryOp :=
  if s = "not" then .ok .not
  else if s = "floor" then .ok .floor
  else if s = "ceil" then .ok .ceil
  else if s = "round" then .ok .round
  else if s = "trunc" then .ok .trunc
  else .error (.parseError s)

def parseBinaryOp (s : String) : Except Error BinaryOp :=
  if s = "eq" then .ok .eq
  else if s = "not_eq" then .ok .notEq
  else if s = "less" then .ok .less
  else if s = "less_eq" then .ok .lessEq
  else if s = "more" then .ok .more
  else if s = "more_eq" then .ok .moreEq
  else if s = "contains" then .ok .contains
  else if s = "not_contains" then .ok .notContains
  else .error (.parseError s)

def parseTernaryOp (s : String) : Except Error TernaryOp :=
  if s = "if" then .ok .ifElse
  else .error (.parseError s)

/-! ## Property typing (§4.2), spec-modelled

`make_property` itself lives in the absent `types` module; the contract is
modelled from the spec: succeed exactly when the value's runtime variant is
one the kind declares acceptable (a named constant must additionally belong
to the kind's expected constant family). -/

/-- The constant family a kind expects, when it accepts named constants at all. -/
def PropertyKind.expectedFamily : PropertyKind → Option ConstantFamily
  | .weight => some .weight
  | .slant => some .slant
  | .hintstyle => some .hintstyle
  | _ => none

/-- Modelled from the spec: which value variants each kind declares
acceptable (string-valued, double-valued, integer-or-constant-valued, and
boolean-valued kinds). -/
def acceptable (k : PropertyKind) (v : Value) : Bool :=
  match k, v with
  | .family, .string _ => true
  | .style, .string _ => true
  | .size, .double _ => true
  | .weight, .int _ => true
  | .slant, .int _ => true
  | .hinting, .bool _ => true
  | .antialias, .bool _ => true
  | k, .constant c => k.expectedFamily = some c.family
  | _, _ => false

/-- Modelled from the spec: `PropertyKind::make_property(value)` as used by
the streaming parser: validates the leaf value against the kind and wraps it
(as a leaf expression) into a `Property`. -/
def PropertyKind.makeProperty (k : PropertyKind) (v : Value) : Except Error Property :=
  match k, v with
  | .family, .string s => .ok ⟨.family, .simple (.string s)⟩
  | .style, .string s => .ok ⟨.style, .simple (.string s)⟩
  | .size, .double d => .ok ⟨.size, .simple (.double d)⟩
  | .weight, .int n => .ok ⟨.weight, .simple (.int n)⟩
  | .slant, .int n => .ok ⟨.slant, .simple (.int n)⟩
  | .hinting, .bool b => .ok ⟨.hinting, .simple (.bool b)⟩
  | .antialias, .bool b => .ok ⟨.antialias, .simple (.bool b)⟩
  | k, .constant c =>
    match k.expectedFamily with
    | some fam =>
      if c.family = fam then .ok ⟨k, .simple (.constant c)⟩
      else .error (.constantPropertyError k c)
    | none => .error (.propertyConvertError k (.constant c))
  | k, v => .error (.propertyConvertError k v)

/-- Modelled from the spec: the tree-walk parser's property construction
(`parser.rs` assigns `kind.make_property(parse_expr(..)?)` without a
fallibility marker): wrap the already-parsed expression under the kind. -/
def PropertyKind.makePropertyExpr (k : PropertyKind) (e : Expression) : Property := ⟨k, e⟩

/-! ## Rule structures (§3) -/

structure Test where
  qual : TestQual
  target : PropertyTarget
  compare : CompareOp
  value : Property
deriving Repr

def Test.default : Test := ⟨.any, .pattern, .eq, ⟨.family, .simple (.string "")⟩⟩

structure Edit where
  mode : EditMode
  binding : EditBinding
  value : Property
deriving Repr

def Edit.default : Edit := ⟨.assign, .weak, ⟨.family, .simple (.string "")⟩⟩

structure Match where
  target : MatchTarget
  tests : List Test
  edits : List Edit
deriving Repr

def Match.default : Match := ⟨.pattern, [], []⟩

/-! ## Path-bearing declarations (§3) and path resolution (§4.7) -/

structure Dir where
  pfx : PrefixKind
  salt : Option String
  path : String
deriving DecidableEq, Repr

def Dir.default : Dir := ⟨.default, none, ""⟩

structure CacheDir where
  pfx : PrefixKind
  path : String
deriving DecidableEq, Repr

def CacheDir.default : CacheDir := ⟨.default, ""⟩

structure Include where
  pfx : PrefixKind
  ignoreMissing : Bool
  path : String
deriving DecidableEq, Repr

def Include.default : Include := ⟨.default, false, ""⟩

structure RemapDir where
  pfx : PrefixKind
  salt : Option String
  asPath : String
  path : String
deriving DecidableEq, Repr

/-- Modelled from the spec: select-font accept/reject rules (§3 SelectFont);
payload kept opaque as glob texts. -/
structure SelectFont where
  accepts : List String
  rejects : List String
deriving DecidableEq, Repr

/-- Modelled from the spec: an alias rule (§3 Alias); payload kept opaque. -/
structure Alias where
  family : String
deriving DecidableEq, Repr

structure Config where
  rescans : List Int
  blanks : List (Int × Int)
deriving DecidableEq, Repr

def Config.default : Config := ⟨[], []⟩

def parentChars (l : List Char) : List Char :=
  ((l.reverse.dropWhile (fun c => c ≠ '/')).drop 1).reverse

/-- Parent directory of a path, as text. -/
def parentDir (p : String) : String := String.mk (parentChars p.data)

def isAbsolute (p : String) : Bool :=
  match p.data with
  | '/' :: _ => true
  | _ => false

/-- Modelled from the spec: `calculate_path` (§4.7). Absolute paths pass
through unchanged; a default-prefixed relative path resolves against the
enclosing file's directory; the cwd/relative discriminators leave the text
as-is (the process cwd and the caller base are outside the model); xdg
prepends a symbolic user-config base. -/
def resolvePath (pfx : PrefixKind) (raw cfgPath : String) : String :=
  if isAbsolute raw then raw
  else
    match pfx with
    | .default => parentDir cfgPath ++ "/" ++ raw
    | .cwd => raw
    | .relative => raw
    | .xdg => "XDG_CONFIG_HOME/" ++ raw

def Include.calculatePath (inc : Include) (cfgPath : String) : String :=
  resolvePath inc.pfx inc.path cfgPath

/-! ## The streaming parser (`src/lib.rs`)

The `quick_xml::Reader` is modelled as a list of already-decoded events;
reaching the end of the list is the `Event::Eof` case. Attribute values and
text payloads carry their decoded text (`unescape_and_decode` is the
identity on the model). -/

inductive XmlEvent where
  | decl
  | text (s : String)
  | comment (s : String)
  | docType (s : String)
  | start (name : String) (attrs : List (String × String))
  | endTag (name : String)
  | empty (name : String) (attrs : List (String × String))
  | cdata (s : String)
  | pi (s : String)
deriving DecidableEq, Repr

/-- The single-file parse result of the streaming parser (`Document` in
`src/lib.rs`). -/
structure Document where
  description : String
  dirs : List Dir
  cacheDirs : List CacheDir
  includes : List Include
  -- `matches` is reserved syntax in Lean; this field is `Document.matches`
  matchRules : List Match
  config : Config
deriving Repr

def Document.default : Document := ⟨"", [], [], [], [], Config.default⟩

/-- quick-xml `Reader::read_to_end(end)`: skip events, tracking nesting of
`end`-named elements, until the matching end tag; `Eof` first is an
unexpected-eof error. -/
def readToEnd (tag : String) : Nat → List XmlEvent → Except Error (List XmlEvent)
  | _, [] => .error (.xml (.unexpectedEof tag))
  | depth, e :: rest =>
    match e with
    | .endTag n =>
      if n = tag then
        if depth = 0 then .ok rest else readToEnd tag (depth - 1) rest
      else readToEnd tag depth rest
    | .start n _ =>
      if n = tag then readToEnd tag (depth + 1) rest else readToEnd tag depth rest
    | _ => readToEnd tag depth rest

/-- quick-xml `Reader::read_text(end)`: a text event yields its content and
then skips to the matching end tag; an immediate matching end tag yields the
empty string; `Eof` is an unexpected-eof error; any other event is a
text-not-found error. -/
def readText (tag : String) : List XmlEvent → Except Error (String × List XmlEvent)
  | [] => .error (.xml (.unexpectedEof "Text"))
  | .text s :: rest =>
    match readToEnd tag 0 rest with
    | .ok rest' => .ok (s, rest')
    | .error e => .error e
  | .endTag n :: rest =>
    if n = tag then .ok ("", rest) else .error (.xml .textNotFound)
  | _ :: _ => .error (.xml .textNotFound)

/-- `DocumentReader::read_string`: scan for the given start tag and read its
text (`lib.rs` lines 72-88); non-start events are skipped, a different start
tag is an `InvalidFormat` error, `Eof` is an unexpected-eof error. -/
def readString (tag : String) : List XmlEvent → Except Error (String × List XmlEvent)
  | [] => .error (.xml (.unexpectedEof ("Expect " ++ tag)))
  | .start s _ :: rest =>
    if s = tag then readText tag rest else .error .invalidFormat
  | _ :: rest => readString tag rest

def liftPRes {α} : Except Error (α × List XmlEvent) → PRes (α × List XmlEvent)
  | .ok x => .ok x
  | .error e => .err e

/-- `DocumentReader::read_value` (`lib.rs` lines 90-133): dispatch on the
next start tag among the leaf value elements; the `matrix` case reads
exactly four `double` strings; an unrecognized start tag is the `todo!`
panic; `Eof` is an unexpected-eof error. -/
def readValue : List XmlEvent → PRes (Value × List XmlEvent)
  | [] => .err (.xml (.unexpectedEof "Expect property"))
  | .start s _ :: rest =>
    match s with
    | "string" =>
      liftPRes <| (readText "string" rest).map fun (t, r) => (.string t, r)
    | "double" =>
      liftPRes <| (readText "double" rest).bind fun (t, r) =>
        (parseDouble t).map fun d => (.double d, r)
    | "int" =>
      liftPRes <| (readText "int" rest).bind fun (t, r) =>
        (parseInt t).map fun n => (.int n, r)
    | "bool" =>
      liftPRes <| (readText "bool" rest).bind fun (t, r) =>
        (parseBool t).map fun b => (.bool b, r)
    | "const" =>
      liftPRes <| (readText "const" rest).bind fun (t, r) =>
        (parseConstant t).map fun c => (.constant c, r)
    | "matrix" =>
      liftPRes <| (readString "double" rest).bind fun (t1, r1) =>
        (parseDouble t1).bind fun d1 =>
        (readString "double" r1).bind fun (t2, r2) =>
        (parseDouble t2).bind fun d2 =>
        (readString "double" r2).bind fun (t3, r3) =>
        (parseDouble t3).bind fun d3 =>
        (readString "double" r3).bind fun (t4, r4) =>
        (parseDouble t4).map fun d4 => (Value.matrix4 d1 d2 d3 d4, r4)
    | _ => .crash s
  | _ :: rest => readValue rest

/-! ## Attribute folds of the streaming parser

Each element's attribute loop becomes a monadic fold over the attribute
list; `PropertyKind::default()` of the absent `types` module is modelled as
the first listed kind. -/

def PropertyKind.default : PropertyKind := .family

def applyTestAttr (st : PropertyKind × Test) (kv : String × String) :
    Except Error (PropertyKind × Test) :=
  match kv.1 with
  | "name" => (parsePropertyKind kv.2).map fun k => (k, st.2)
  | "qual" => (parseTestQual kv.2).map fun q => (st.1, { st.2 with qual := q })
  | "target" => (parsePropertyTarget kv.2).map fun t => (st.1, { st.2 with target := t })
  | "compare" => (parseCompareOp kv.2).map fun c => (st.1, { st.2 with compare := c })
  | _ => .ok st

def parseTestAttrs (attrs : List (String × String)) : Except Error (PropertyKind × Test) :=
  attrs.foldlM applyTestAttr (PropertyKind.default, Test.default)

def applyEditAttr (st : PropertyKind × Edit) (kv : String × String) :
    Except Error (PropertyKind × Edit) :=
  match kv.1 with
  | "name" => (parsePropertyKind kv.2).map fun k => (k, st.2)
  | "mode" => (parseEditMode kv.2).map fun m => (st.1, { st.2 with mode := m })
  | "binding" => (parseEditBinding kv.2).map fun b => (st.1, { st.2 with binding := b })
  | _ => .ok st

def parseEditAttrs (attrs : List (String × String)) : Except Error (PropertyKind × Edit) :=
  attrs.foldlM applyEditAttr (PropertyKind.default, Edit.default)

def applyDirAttr (d : Dir) (kv : String × String) : Except Error Dir :=
  match kv.1 with
  | "prefix" => (parsePrefixKind kv.2).map fun p => { d with pfx := p }
  | "salt" => .ok { d with salt := some kv.2 }
  | _ => .ok d

def applyCacheDirAttr (d : CacheDir) (kv : String × String) : Except Error CacheDir :=
  match kv.1 with
  | "prefix" => (parsePrefixKind kv.2).map fun p => { d with pfx := p }
  | _ => .ok d

/-- The include element's attribute step (`lib.rs` lines 304-324): `prefix`
goes through the generic coercion, while `ignore_missing` is matched inline
against exactly "yes" and "no", any other text being `InvalidFormat`. -/
def applyIncludeAttr (inc : Include) (kv : String × String) : Except Error Include :=
  match kv.1 with
  | "prefix" => (parsePrefixKind kv.2).map fun p => { inc with pfx := p }
  | "ignore_missing" =>
    if kv.2 = "yes" then .ok { inc with ignoreMissing := true }
    else if kv.2 = "no" then .ok { inc with ignoreMissing := false }
    else .error .invalidFormat
  | _ => .ok inc

def parseIncludeAttrs (attrs : List (String × String)) : Except Error Include :=
  attrs.foldlM applyIncludeAttr Include.default

/-! ## The streaming sub-readers and `read_document` -/

/-- `DocumentReader::read_match` loop body (`lib.rs` lines 135-195), with
the accumulator made explicit: `test`/`edit` children are read and appended
until the enclosing `match` end tag; reaching `Eof` breaks the loop and
returns the accumulator as-is. `fuel` only drives termination (one unit per
loop iteration; the event-list length always suffices). -/
def readMatchLoop : Nat → Match → List XmlEvent → PRes (Match × List XmlEvent)
  | 0, _, _ => .diverge
  | _ + 1, ret, [] => .ok (ret, [])
  | fuel + 1, ret, ev :: rest =>
    match ev with
    | .text _ | .comment _ => readMatchLoop fuel ret rest
    | .start s attrs =>
      match s with
      | "test" =>
        match parseTestAttrs attrs with
        | .error e => .err e
        | .ok (kind, test) =>
          match readValue rest with
          | .err e => .err e
          | .crash m => .crash m
          | .diverge => .diverge
          | .ok (v, r1) =>
            match kind.makeProperty v with
            | .error e => .err e
            | .ok prop =>
              match readToEnd "test" 0 r1 with
              | .error e => .err e
              | .ok r2 =>
                readMatchLoop fuel { ret with tests := ret.tests ++ [{ test with value := prop }] } r2
      | "edit" =>
        match parseEditAttrs attrs with
        | .error e => .err e
        | .ok (kind, edit) =>
          match readValue rest with
          | .err e => .err e
          | .crash m => .crash m
          | .diverge => .diverge
          | .ok (v, r1) =>
            match kind.makeProperty v with
            | .error e => .err e
            | .ok prop =>
              match readToEnd "edit" 0 r1 with
              | .error e => .err e
              | .ok r2 =>
                readMatchLoop fuel { ret with edits := ret.edits ++ [{ edit with value := prop }] } r2
      | _ => readMatchLoop fuel ret rest
    | .endTag n =>
      if n = "match" then .ok (ret, rest) else readMatchLoop fuel ret rest
    | _ => readMatchLoop fuel ret rest

/-- `DocumentReader::read_config` loop body (`lib.rs` lines 197-222):
`rescan` integers are accumulated until the enclosing `config` end tag;
reaching `Eof` here is a fatal unexpected-eof error. -/
def readConfigLoop : Nat → Config → List XmlEvent → PRes (Config × List XmlEvent)
  | 0, _, _ => .diverge
  | _ + 1, _, [] => .err (.xml (.unexpectedEof "Expected config"))
  | fuel + 1, ret, ev :: rest =>
    match ev with
    | .start s _ =>
      match s with
      | "rescan" =>
        match readString "int" rest with
        | .error e => .err e
        | .ok (t, r1) =>
          match parseInt t with
          | .error e => .err e
          | .ok n => readConfigLoop fuel { ret with rescans := ret.rescans ++ [n] } r1
      | _ => readConfigLoop fuel ret rest
    | .endTag n =>
      if n = "config" then .ok (ret, rest) else readConfigLoop fuel ret rest
    | _ => readConfigLoop fuel ret rest

/-- The fontconfig DOCTYPE reference accepted by the validation stage. -/
def fontconfigDtd : String := " fontconfig SYSTEM \"urn:fontconfig:fonts.dtd\""

/-- Stage 1 of `read_document` (`lib.rs` lines 229-244): consume events
until the `fontconfig` start element; declarations, text, comments, doctype
with matching content and non-`fontconfig` start elements are all skipped;
a mismatching doctype fails with `UnmatchedDocType`; end-of-input and every
other event fail with `NoFontconfig`. -/
def validate : List XmlEvent → Except Error (List XmlEvent)
  | [] => .error .noFontconfig
  | ev :: rest =>
    match ev with
    | .decl | .text _ | .comment _ => validate rest
    | .docType s =>
      if s = fontconfigDtd then validate rest else .error .unmatchedDocType
    | .start n _ => if n = "fontconfig" then .ok rest else validate rest
    | _ => .error .noFontconfig

/-- Stage 2 of `read_document` (`lib.rs` lines 250-337): dispatch on
recognized start tags, appending each sub-reader's result to the output
document; unrecognized start tags only emit a diagnostic; the loop stops at
end-of-input. -/
def readBody : Nat → Document → List XmlEvent → PRes Document
  | 0, _, _ => .diverge
  | _ + 1, doc, [] => .ok doc
  | fuel + 1, doc, ev :: rest =>
    match ev with
    | .start s attrs =>
      match s with
      | "description" =>
        match readText "description" rest with
        | .error e => .err e
        | .ok (t, r1) => readBody fuel { doc with description := t } r1
      | "match" =>
        match readMatchLoop (rest.length + 1) Match.default rest with
        | .err e => .err e
        | .crash m => .crash m
        | .diverge => .diverge
        | .ok (m, r1) => readBody fuel { doc with matchRules := doc.matchRules ++ [m] } r1
      | "config" =>
        match readConfigLoop (rest.length + 1) Config.default rest with
        | .err e => .err e
        | .crash m => .crash m
        | .diverge => .diverge
        | .ok (c, r1) => readBody fuel { doc with config := c } r1
      | "dir" =>
        match List.foldlM applyDirAttr Dir.default attrs with
        | .error e => .err e
        | .ok d =>
          match readText "dir" rest with
          | .error e => .err e
          | .ok (t, r1) => readBody fuel { doc with dirs := doc.dirs ++ [{ d with path := t }] } r1
      | "cachedir" =>
        match List.foldlM applyCacheDirAttr CacheDir.default attrs with
        | .error e => .err e
        | .ok d =>
          match readText "cachedir" rest with
          | .error e => .err e
          | .ok (t, r1) =>
            readBody fuel { doc with cacheDirs := doc.cacheDirs ++ [{ d with path := t }] } r1
      | "include" =>
        match parseIncludeAttrs attrs with
        | .error e => .err e
        | .ok inc =>
          match readText "include" rest with
          | .error e => .err e
          | .ok (t, r1) =>
            readBody fuel { doc with includes := doc.includes ++ [{ inc with path := t }] } r1
      | _ => readBody fuel doc rest
    | _ => readBody fuel doc rest

/-- `DocumentReader::read_document` (`lib.rs` lines 224-340): the validation
stage followed by the element stage. -/
def readDocument (evs : List XmlEvent) : PRes Document :=
  match validate evs with
  | .error e => .err e
  | .ok rest => readBody (rest.length + 1) Document.default rest

/-! ## The tree-walk parser (`src/parser.rs`)

A roxmltree node is modelled as an element (name, attributes, ordered
children) or a text node. `try_text!` (from the absent `util` module) is
modelled from the spec's collaborator interface (§6 "first-child text
extraction"). -/

inductive XNode where
  | element (name : String) (attrs : List (String × String)) (children : List XNode)
  | text (s : String)
deriving Repr

def XNode.isElement : XNode → Bool
  | .element _ _ _ => true
  | .text _ => false

def XNode.lookupAttr (n : XNode) (key : String) : Option String :=
  match n with
  | .element _ attrs _ => (attrs.find? fun kv => kv.1 = key).map Prod.snd
  | .text _ => none

def XNode.firstElementChild : XNode → Option XNode
  | .element _ _ children => children.find? XNode.isElement
  | .text _ => none

/-- Modelled from the spec: `try_text!` — extract the node's first-child
text, failing with `InvalidFormat` when there is none. -/
def tryText : XNode → Except Error String
  | .element _ _ (.text s :: _) => .ok s
  | _ => .error .invalidFormat

/-- Modelled from the spec: the `parse_attrs!` macro of the absent `util`
module — look one attribute up and coerce it via §4.3, keeping the default
when the attribute is absent. -/
def parseAttrWith {α} (n : XNode) (key : String) (p : String → Except Error α)
    (dflt : α) : Except Error α :=
  match n.lookupAttr key with
  | none => .ok dflt
  | some raw => p raw

mutual

/-- `parse_expr` (`parser.rs` lines 84-139): leaf tags parse their text;
`matrix` collects all element children; `name` reads its optional target
attribute and its text as a property kind; every other tag collects all
element children and tries the four operator families in the priority order
list, unary, binary, ternary; when none matches the code hits `todo!`,
modelled as a crash carrying the tag name. -/
def parseExpr : XNode → PRes Expression
  | .text s => .crash s
  | .element name attrs children =>
    match name with
    | "string" =>
      match tryText (.element name attrs children) with
      | .error e => .err e
      | .ok t => .ok (.simple (.string t))
    | "double" =>
      match tryText (.element name attrs children) with
      | .error e => .err e
      | .ok t =>
        match parseDouble t with
        | .error e => .err e
        | .ok d => .ok (.simple (.double d))
    | "int" =>
      match tryText (.element name attrs children) with
      | .error e => .err e
      | .ok t =>
        match parseInt t with
        | .error e => .err e
        | .ok n => .ok (.simple (.int n))
    | "bool" =>
      match tryText (.element name attrs children) with
      | .error e => .err e
      | .ok t =>
        match parseBool t with
        | .error e => .err e
        | .ok b => .ok (.simple (.bool b))
    | "const" =>
      match tryText (.element name attrs children) with
      | .error e => .err e
      | .ok t =>
        match parseConstant t with
        | .error e => .err e
        | .ok c => .ok (.simple (.constant c))
    | "matrix" =>
      match parseExprList children with
      | .err e => .err e
      | .crash m => .crash m
      | .diverge => .diverge
      | .ok l => .ok (.matrix l)
    | "name" =>
      match parseAttrWith (.element name attrs children) "target" parsePropertyTarget .default with
      | .error e => .err e
      | .ok target =>
        match tryText (.element name attrs children) with
        | .error e => .err e
        | .ok t =>
          match parsePropertyKind t with
          | .error e => .err e
          | .ok k => .ok (.simple (.property target k))
    | _ =>
      match parseExprList children with
      | .err e => .err e
      | .crash m => .crash m
      | .diverge => .diverge
      | .ok l =>
        match parseListOp name with
        | .ok op => .ok (.list op l)
        | .error _ =>
          match parseUnaryOp name with
          | .ok op => .ok (.unary op l)
          | .error _ =>
            match parseBinaryOp name with
            | .ok op => .ok (.binary op l)
            | .error _ =>
              match parseTernaryOp name with
              | .ok op => .ok (.ternary op l)
              | .error _ => .crash name

/-- The `filter_map(... parse_expr ...).collect::<Result<Vec<_>>>()` pattern:
parse the element children in source order, propagating the first failure. -/
def parseExprList : List XNode → PRes (List Expression)
  | [] => .ok []
  | n :: ns =>
    if n.isElement then
      match parseExpr n with
      | .err e => .err e
      | .crash m => .crash m
      | .diverge => .diverge
      | .ok e =>
        match parseExprList ns with
        | .err e' => .err e'
        | .crash m => .crash m
        | .diverge => .diverge
        | .ok l => .ok (e :: l)
    else parseExprList ns

end

/-- First-child text with empty default, as used by the tree-walk
`description` branch (`child.first_child().and_then(|c| c.text())`). -/
def firstChildText : List XNode → String
  | .text s :: _ => s
  | _ => ""

/-- The `test`/`edit` child loop of the tree-walk `match` branch
(`parser.rs` lines 34-70); `first_element_child().unwrap()` on a childless
body is the `Option::unwrap` panic, modelled as a crash. -/
def parseMatchChildren (m : Match) : List XNode → PRes Match
  | [] => .ok m
  | c :: cs =>
    match c with
    | .text _ => parseMatchChildren m cs
    | .element tag _ _ =>
      match tag with
      | "test" =>
        match parseAttrWith c "name" parsePropertyKind PropertyKind.default with
        | .error e => .err e
        | .ok kind =>
          match parseAttrWith c "qual" parseTestQual Test.default.qual with
          | .error e => .err e
          | .ok qual =>
            match parseAttrWith c "target" parsePropertyTarget Test.default.target with
            | .error e => .err e
            | .ok target =>
              match parseAttrWith c "compare" parseCompareOp Test.default.compare with
              | .error e => .err e
              | .ok compare =>
                match c.firstElementChild with
                | none => .crash "called Option::unwrap() on a None value"
                | some ec =>
                  match parseExpr ec with
                  | .err e => .err e
                  | .crash msg => .crash msg
                  | .diverge => .diverge
                  | .ok expr =>
                    parseMatchChildren
                      { m with tests := m.tests ++
                          [{ qual, target, compare, value := kind.makePropertyExpr expr }] } cs
      | "edit" =>
        match parseAttrWith c "name" parsePropertyKind PropertyKind.default with
        | .error e => .err e
        | .ok kind =>
          match parseAttrWith c "mode" parseEditMode Edit.default.mode with
          | .error e => .err e
          | .ok mode =>
            match parseAttrWith c "binding" parseEditBinding Edit.default.binding with
            | .error e => .err e
            | .ok binding =>
              match c.firstElementChild with
              | none => .crash "called Option::unwrap() on a None value"
              | some ec =>
                match parseExpr ec with
                | .err e => .err e
                | .crash msg => .crash msg
                | .diverge => .diverge
                | .ok expr =>
                  parseMatchChildren
                    { m with edits := m.edits ++
                        [{ mode, binding, value := kind.makePropertyExpr expr }] } cs
      | _ => parseMatchChildren m cs

/-- The top-level child loop of `parse_document` (`parser.rs` lines 18-79):
only `description` and `match` elements are handled, everything else is
skipped with a diagnostic. -/
def parseDocChildren (doc : Document) : List XNode → PRes Document
  | [] => .ok doc
  | c :: cs =>
    match c with
    | .text _ => parseDocChildren doc cs
    | .element tag _ children =>
      match tag with
      | "description" =>
        parseDocChildren { doc with description := firstChildText children } cs
      | "match" =>
        match parseAttrWith c "target" parseMatchTarget Match.default.target with
        | .error e => .err e
        | .ok target =>
          match parseMatchChildren { Match.default with target } children with
          | .err e => .err e
          | .crash msg => .crash msg
          | .diverge => .diverge
          | .ok m => parseDocChildren { doc with matchRules := doc.matchRules ++ [m] } cs
      | _ => parseDocChildren doc cs

/-- `parse_document` (`parser.rs` lines 9-82): validate the root element
name and fold the root's element children. -/
def parseDocument (root : XNode) : PRes Document :=
  match root with
  | .text _ => .err .noFontconfig
  | .element name _ children =>
    if name = "fontconfig" then parseDocChildren Document.default children
    else .err .noFontconfig

/-! ## The merge/include engine (`src/types/document.rs`)

`parse_config` (referenced by `merge_config` but absent from the provided
sources) is abstracted into the filesystem model: a file entry carries the
outcome of reading-and-parsing it, namely either a top-level failure or the
ordered list of per-fragment `Result<ConfigPart>` values the fragment
iterator would yield. `eprintln!` diagnostics are modelled as an output log
list; a Rust `Err` return becomes the `Option Error` component while the
(in-place mutated) accumulator is returned in both cases. -/

inductive ConfigPart where
  | description (s : String)
  | selectFont (s : SelectFont)
  | dir (d : Dir)
  | cacheDir (d : CacheDir)
  | include (i : Include)
  | matchRule (m : Match)
  | config (c : Config)
  | alias (a : Alias)
  | remapDir (r : RemapDir)
  | resetDirs
deriving Repr

/-- Final dir data (`document.rs` lines 134-142). -/
structure DirData where
  path : String
  salt : Option String
deriving DecidableEq, Repr

/-- Final remap-dirs data (`document.rs` lines 144-154). -/
structure RemapDirData where
  path : String
  salt : Option String
  asPath : String
deriving DecidableEq, Repr

/-- The resolved accumulator (`document.rs` lines 23-33). -/
structure FontConfig where
  selectFonts : List SelectFont
  dirs : List DirData
  cacheDirs : List String
  remapDirs : List RemapDirData
  -- `matches` is reserved syntax in Lean; this field is `FontConfig::matches`
  matchRules : List Match
  config : Config
  aliases : List Alias
deriving Repr

def FontConfig.default : FontConfig := ⟨[], [], [], [], [], Config.default, []⟩

inductive EntryKind where
  | file | symlink | dir | other
deriving DecidableEq, Repr

/-- A filesystem node: a config file collapsed to its read-and-parse
outcome, or a directory listing its direct entries (name and entry kind) in
the filesystem's native enumeration order. -/
inductive FsEntry where
  | file (parts : Except Error (List (Except Error ConfigPart)))
  | dir (entries : List (String × EntryKind))

def Fs := List (String × FsEntry)

def Fs.lookup (fs : Fs) (path : String) : Option FsEntry :=
  match fs with
  | [] => none
  | (p, e) :: rest => if p = path then some e else Fs.lookup rest path

/-- The outcome of one `merge_config`/`include` call: the accumulator after
all in-place mutations, the returned `Result` (as an optional error), and
the stderr diagnostics emitted, in order. -/
abbrev MergeOut := FontConfig × Option Error × List String

/-- The `eprintln!` text of `merge_config`'s include failure branch
(`document.rs` line 68); the error's display text is not modelled. -/
def failMsg (path : String) : String := "Failed to load " ++ path

/-- The fragment fold of `merge_config` (`document.rs` lines 40-74), with
the recursive include resolution abstracted as `incF`. An `Err` fragment
from the iterator aborts the fold (the `part?` in line 41); an include
failure is logged when `ignore_missing` is unset and the fold continues
either way. -/
def foldParts (incF : String → FontConfig → MergeOut) (cfgPath : String)
    (fc : FontConfig) : List (Except Error ConfigPart) → MergeOut
  | [] => (fc, none, [])
  | .error e :: _ => (fc, some e, [])
  | .ok part :: rest =>
    match part with
    | .alias a => foldParts incF cfgPath { fc with aliases := fc.aliases ++ [a] } rest
    | .config c =>
      foldParts incF cfgPath
        { fc with config := ⟨fc.config.rescans ++ c.rescans, fc.config.blanks ++ c.blanks⟩ } rest
    | .description _ => foldParts incF cfgPath fc rest
    | .dir d =>
      foldParts incF cfgPath
        { fc with dirs := fc.dirs ++ [⟨resolvePath d.pfx d.path cfgPath, d.salt⟩] } rest
    | .cacheDir d =>
      foldParts incF cfgPath
        { fc with cacheDirs := fc.cacheDirs ++ [resolvePath d.pfx d.path cfgPath] } rest
    | .matchRule m => foldParts incF cfgPath { fc with matchRules := fc.matchRules ++ [m] } rest
    | .resetDirs => foldParts incF cfgPath { fc with dirs := [] } rest
    | .selectFont s => foldParts incF cfgPath { fc with selectFonts := fc.selectFonts ++ [s] } rest
    | .remapDir r =>
      foldParts incF cfgPath
        { fc with remapDirs := fc.remapDirs ++ [⟨resolvePath r.pfx r.path cfgPath, r.salt, r.asPath⟩] } rest
    | .include inc =>
      let ipath := inc.calculatePath cfgPath
      let (fc1, res, log1) := incF ipath fc
      let log2 :=
        match res with
        | some _ => if inc.ignoreMissing then log1 else log1 ++ [failMsg ipath]
        | none => log1
      let (fc2, res2, log3) := foldParts incF cfgPath fc1 rest
      (fc2, res2, log2 ++ log3)

/-- The per-entry loop of `include`'s directory case: each collected path is
merged with its result discarded (`self.merge_config(&config_path).ok()`),
its diagnostics accumulating in order. -/
def mergeDirList (mergeF : String → FontConfig → MergeOut) :
    List String → FontConfig → FontConfig × List String
  | [], fc => (fc, [])
  | p :: ps, fc =>
    let (fc1, _, log1) := mergeF p fc
    let (fc2, log2) := mergeDirList mergeF ps fc1
    (fc2, log1 ++ log2)

/-- `FontConfig::include` (`document.rs` lines 79-108) with the recursive
`merge_config` call abstracted as `mergeF`: stat the resolved path; a file
is merged directly (propagating its error), a directory has its file and
symlink entries collected into a `BinaryHeap` of paths and merged in the
heap's iteration order with every per-entry error swallowed; a missing path
is a metadata error (an io error wrapped as `Error::Xml`). -/
def includeStep (mergeF : String → FontConfig → MergeOut) (fs : Fs)
    (ipath : String) (fc : FontConfig) : MergeOut :=
  match fs.lookup ipath with
  | none => (fc, some (.xml .io), [])
  | some (.file _) => mergeF ipath fc
  | some (.dir entries) =>
    let paths := entries.filterMap fun (name, kind) =>
      if kind = .file ∨ kind = .symlink then some (ipath ++ "/" ++ name) else none
    let ordered := includeDirOrder paths
    let (fc1, logs) := mergeDirList mergeF ordered fc
    (fc1, none, logs)

/-- `FontConfig::merge_config` (`document.rs` lines 36-77): read and parse
the file (collapsed into the filesystem entry), then fold its fragments;
`fuel` bounds the include recursion depth, which the code leaves unbounded
(recursion is structural on `fuel` so that runs on concrete inputs reduce). -/
def mergeConfig : Nat → Fs → String → FontConfig → MergeOut
  | 0, _, _, fc => (fc, none, ["model: out of fuel"])
  | fuel + 1, fs, path, fc =>
    match fs.lookup path with
    | some (.file (.ok parts)) =>
      foldParts (fun ip g => includeStep (fun p h => mergeConfig fuel fs p h) fs ip g) path fc parts
    | some (.file (.error e)) => (fc, some e, [])
    | some (.dir _) => (fc, some (.xml .io), [])
    | none => (fc, some (.xml .io), [])

/-- `FontConfig::include` at a given recursion budget, as invoked by
`merge_config`. -/
def includeFn (fuel : Nat) (fs : Fs) (ipath : String) (fc : FontConfig) : MergeOut :=
  includeStep (fun p h => mergeConfig fuel fs p h) fs ipath fc

/-! ## Auxiliary results -/

def PRes.isErr {α} : PRes α → Bool
  | .err _ => true
  | _ => false

/-- Observation: did a fallible step fail with the generic coercion's
"Unknown variant" error? -/
def isUnknownVariantOut {α} : Except Error α → Bool
  | .error (.parseError _) => true
  | _ => false

/-- Spec-side definition (§4.5): interpret an operator element by trying the
four operator-family enums on its tag name in the priority order list,
unary, binary, ternary, over the already-parsed child expressions in source
order; a tag belonging to no family has no error path (the tree-walk code
panics there). -/
def specOperatorInterp (name : String) (subs : PRes (List Expression)) : PRes Expression :=
  match subs with
  | .err e => .err e
  | .crash m => .crash m
  | .diverge => .diverge
  | .ok l =>
    match parseListOp name with
    | .ok op => .ok (.list op l)
    | .error _ =>
      match parseUnaryOp name with
      | .ok op => .ok (.unary op l)
      | .error _ =>
        match parseBinaryOp name with
        | .ok op => .ok (.binary op l)
        | .error _ =>
          match parseTernaryOp name with
          | .ok op => .ok (.ternary op l)
          | .error _ => .crash name

/-- The error produced by `make_property` on a rejected value: a
constant-family mismatch gets the more specific error, everything else the
generic conversion error. -/
def mismatchError (k : PropertyKind) (v : Value) : Error :=
  match v with
  | .constant c =>
    match k.expectedFamily with
    | some _ => .constantPropertyError k c
    | none => .propertyConvertError k v
  | _ => .propertyConvertError k v

theorem parseExprList_length (l : List XNode) (es : List Expression)
    (h : parseExprList l = .ok es) : es.length = (l.filter XNode.isElement).length := by
  induction l generalizing es with
  | nil =>
    rw [parseExprList] at h
    cases h
    rfl
  | cons n ns ih =>
    rw [parseExprList] at h
    by_cases he : n.isElement
    · simp only [he, if_true] at h
      cases hp : parseExpr n <;> rw [hp] at h <;> try cases h
      cases hl : parseExprList ns <;> rw [hl] at h <;> cases h
      simp [List.filter, he, ih _ hl]
    · simp only [he, if_false] at h
      simp [List.filter, he, ih _ h]

/-! ## Claim fixtures -/

def c1m05 : Match := Match.default

def c1m10 : Match := { Match.default with target := .scan }

/-- A root file including the directory `/conf.d`, whose two entry files
each contribute one match; the filesystem enumerates the entries in
name-sorted order already. -/
def c1Fs : Fs :=
  [("/root.conf", .file (.ok [.ok (.include ⟨.default, true, "/conf.d"⟩)])),
   ("/conf.d", .dir [("05-b.conf", .file), ("10-a.conf", .file)]),
   ("/conf.d/05-b.conf", .file (.ok [.ok (.matchRule c1m05)])),
   ("/conf.d/10-a.conf", .file (.ok [.ok (.matchRule c1m10)]))]

def c2m : Match := { Match.default with target := .font }

/-- A root file whose first fragment is a non-ignore-missing include of a
nonexistent path and whose second fragment is a match. -/
def c2Fs : Fs :=
  [("/root.conf", .file (.ok [.ok (.include ⟨.default, false, "/missing"⟩), .ok (.matchRule c2m)]))]

/-- A tree-walk input whose `test` element has no element child. -/
def c3TreeDoc : XNode :=
  .element "fontconfig" [] [.element "match" [] [.element "test" [("name", "family")] []]]

/-- Streaming events of a matrix with its four double children. -/
def mEvs4 : List XmlEvent :=
  [.start "matrix" [],
   .start "double" [], .text "1", .endTag "double",
   .start "double" [], .text "2", .endTag "double",
   .start "double" [], .text "3", .endTag "double",
   .start "double" [], .text "4", .endTag "double",
   .endTag "matrix"]

/-- Streaming events of a matrix holding only three double children. -/
def mEvs3 : List XmlEvent :=
  [.start "matrix" [],
   .start "double" [], .text "1", .endTag "double",
   .start "double" [], .text "2", .endTag "double",
   .start "double" [], .text "3", .endTag "double",
   .endTag "matrix"]

/-- Streaming events inside a `match` element: one complete test, then the
input ends with no `</match>` end tag. -/
def c9Evs : List XmlEvent :=
  [.start "test" [("name", "family")],
   .start "string" [], .text "serif", .endTag "string",
   .endTag "test"]

/-! ## The claims -/

/-- C1: the claim says a directory include processes its file/symlink
entries in deterministic name-sorted order independent of filesystem
enumeration order. The code collects the paths into a `BinaryHeap` but then
iterates the heap's backing vector directly: two name-sorted entries come
out reversed, the visiting order differs between two enumeration orders of
the same three entries, and the two matches contributed by a name-sorted
directory land in the accumulator in the order 10 before 05. -/
theorem claim1_include_dir_order :
    includeDirOrder ["/conf.d/05-b.conf", "/conf.d/10-a.conf"] =
      ["/conf.d/10-a.conf", "/conf.d/05-b.conf"]
    ∧ sortNames ["/conf.d/05-b.conf", "/conf.d/10-a.conf"] =
      ["/conf.d/05-b.conf", "/conf.d/10-a.conf"]
    ∧ includeDirOrder ["a.conf", "b.conf", "c.conf"] = ["c.conf", "b.conf", "a.conf"]
    ∧ includeDirOrder ["a.conf", "c.conf", "b.conf"] = ["c.conf", "a.conf", "b.conf"]
    ∧ (mergeConfig 4 c1Fs "/root.conf" FontConfig.default).1.matchRules = [c1m10, c1m05] :=
  ⟨by decide, by decide, by decide, by decide, rfl⟩

/-- C2 counterexample: the include of `/missing` fails, `ignore_missing` is
unset, and yet `merge_config` returns no error to its caller: the failure is
only logged to stderr while the following match fragment is still folded. -/
theorem claim2_counterexample :
    mergeConfig 3 c2Fs "/root.conf" FontConfig.default =
      ({ FontConfig.default with matchRules := [c2m] }, none, [failMsg "/missing"]) := rfl

/-- C2 as amended: when an include fragment's resolution fails, the fold
neither aborts nor propagates the failure — it continues with the remaining
fragments from the post-include accumulator state, its own error outcome is
whatever the rest of the fold produces, and the only trace of the failure is
a stderr diagnostic, emitted exactly when ignore-on-missing was not
requested. -/
theorem claim2_include_error_logged_not_returned
    (incF : String → FontConfig → MergeOut) (cfgPath : String) (inc : Include)
    (rest : List (Except Error ConfigPart)) (fc fc1 : FontConfig) (e : Error)
    (log1 : List String)
    (h : incF (inc.calculatePath cfgPath) fc = (fc1, some e, log1)) :
    foldParts incF cfgPath fc (.ok (.include inc) :: rest) =
      ((foldParts incF cfgPath fc1 rest).1,
       (foldParts incF cfgPath fc1 rest).2.1,
       (if inc.ignoreMissing then log1 else log1 ++ [failMsg (inc.calculatePath cfgPath)]) ++
         (foldParts incF cfgPath fc1 rest).2.2) := by
  rw [foldParts, h]

theorem claim2_witness :
    ((fun (_ : String) (f : FontConfig) => (f, some (Error.xml XmlErr.io), ([] : List String)))
        (Include.calculatePath ⟨.default, false, "/missing"⟩ "/root.conf") FontConfig.default =
      (FontConfig.default, some (Error.xml XmlErr.io), []))
    ∧ foldParts (fun _ f => (f, some (Error.xml XmlErr.io), [])) "/root.conf" FontConfig.default
        [.ok (.include ⟨.default, false, "/missing"⟩)] =
      (FontConfig.default, none, [failMsg "/missing"]) := by
  refine ⟨rfl, ?_⟩
  rw [claim2_include_error_logged_not_returned
    (fun _ f => (f, some (Error.xml XmlErr.io), [])) "/root.conf"
    ⟨.default, false, "/missing"⟩ [] FontConfig.default FontConfig.default
    (Error.xml XmlErr.io) [] rfl]
  rfl

/-- C3: the claim says the three listed inputs yield errors, never panics.
The code panics at all three: the tree-walk `test` with no element child
hits `Option::unwrap` on `None`, the tree-walk expression tag matching no
operator family hits `todo!`, and the streaming parser's unrecognized leaf
value tag hits `todo!`. -/
theorem claim3_panics :
    parseDocument c3TreeDoc = .crash "called Option::unwrap() on a None value"
    ∧ parseExpr (.element "foo" [] []) = .crash "foo"
    ∧ readValue [.start "unknowntag" []] = .crash "unknowntag" :=
  ⟨rfl, rfl, rfl⟩

/-- C4: `make_property` succeeds exactly when the value's variant is
acceptable for the kind (a named constant must belong to the kind's expected
constant family), preserving the kind and value on success; a variant
mismatch yields `PropertyConvertError` naming kind and value and a
constant-family mismatch yields the more specific `ConstantPropertyError`
naming kind and constant; no implicit int/double coercion happens since
`acceptable` relates each kind to a single numeric variant. -/
theorem claim4_make_property_contract (k : PropertyKind) (v : Value) :
    k.makeProperty v =
      if acceptable k v then .ok ⟨k, .simple v⟩ else .error (mismatchError k v) := by
  cases k <;> cases v <;>
    first
      | rfl
      | (rename_i c; cases c <;> rfl)

/-- C5: folding a `ResetDirs` fragment clears exactly the directory list:
the fold continues on the accumulator with `dirs` emptied, and every other
accumulator component — cache dirs, matches, aliases, select-font rules,
remap-dir entries and config scalars — is left untouched. -/
theorem claim5_reset_dirs_frame (incF : String → FontConfig → MergeOut)
    (cfgPath : String) (fc : FontConfig) (rest : List (Except Error ConfigPart)) :
    foldParts incF cfgPath fc (.ok .resetDirs :: rest) =
      foldParts incF cfgPath { fc with dirs := [] } rest
    ∧ (foldParts incF cfgPath fc [.ok .resetDirs]).1.dirs = []
    ∧ (foldParts incF cfgPath fc [.ok .resetDirs]).1.cacheDirs = fc.cacheDirs
    ∧ (foldParts incF cfgPath fc [.ok .resetDirs]).1.matchRules = fc.matchRules
    ∧ (foldParts incF cfgPath fc [.ok .resetDirs]).1.aliases = fc.aliases
    ∧ (foldParts incF cfgPath fc [.ok .resetDirs]).1.selectFonts = fc.selectFonts
    ∧ (foldParts incF cfgPath fc [.ok .resetDirs]).1.remapDirs = fc.remapDirs
    ∧ (foldParts incF cfgPath fc [.ok .resetDirs]).1.config = fc.config :=
  ⟨rfl, rfl, rfl, rfl, rfl, rfl, rfl, rfl⟩

/-- C6 counterexample: a start element named other than `fontconfig` is a
top-level event before the root element, yet `read_document` does not fail
with `NoFontconfig` — the event is silently skipped and the parse
succeeds. -/
theorem claim6_counterexample :
    readDocument [.start "notroot" [], .start "fontconfig" []] = .ok Document.default := rfl

/-- C6 as amended: the validation stage skips declarations, text, comments,
a doctype whose content matches the fontconfig DTD reference exactly, and
also any start element not named `fontconfig`; a mismatching doctype fails
with `UnmatchedDocType` (and so does the whole `read_document`, returning no
partial document); end-of-input and every remaining event kind (end tag,
empty element, CDATA, processing instruction) fail with `NoFontconfig`. -/
theorem claim6_validation_stage :
    validate [] = .error .noFontconfig
    ∧ (∀ evs, validate (.decl :: evs) = validate evs)
    ∧ (∀ s evs, validate (.text s :: evs) = validate evs)
    ∧ (∀ s evs, validate (.comment s :: evs) = validate evs)
    ∧ (∀ s evs, validate (.docType s :: evs) =
        if s = fontconfigDtd then validate evs else .error .unmatchedDocType)
    ∧ (∀ n a evs, validate (.start n a :: evs) =
        if n = "fontconfig" then .ok evs else validate evs)
    ∧ (∀ n evs, validate (.endTag n :: evs) = .error .noFontconfig)
    ∧ (∀ n a evs, validate (.empty n a :: evs) = .error .noFontconfig)
    ∧ (∀ s evs, validate (.cdata s :: evs) = .error .noFontconfig)
    ∧ (∀ s evs, validate (.pi s :: evs) = .error .noFontconfig)
    ∧ (∀ s evs, readDocument (.docType s :: evs) =
        if s = fontconfigDtd then readDocument evs else .err .unmatchedDocType) := by
  refine ⟨rfl, fun evs => rfl, fun s evs => rfl, fun s evs => rfl, fun s evs => rfl,
    fun n a evs => rfl, fun n evs => rfl, fun n a evs => rfl, fun s evs => rfl,
    fun s evs => rfl, fun s evs => ?_⟩
  by_cases h : s = fontconfigDtd <;> simp [readDocument, validate, h]

/-- C7 counterexample: an element whose tag belongs to none of the four
operator families does not make parsing fail with an error — the tree-walk
parser panics (`todo!`) instead. -/
theorem claim7_counterexample :
    parseExpr (.element "notanoperator" [] [.element "int" [] [.text "1"]]) =
      .crash "notanoperator"
    ∧ (parseExpr (.element "notanoperator" [] [.element "int" [] [.text "1"]])).isErr = false :=
  ⟨rfl, rfl⟩

/-- C7 as amended: every element tag outside the five leaf cases, `matrix`
and `name` is treated as an operator: all element children are parsed as
sub-expressions in source order and the tag is interpreted against the four
operator families in the priority order list, unary, binary, ternary, the
first success winning; a tag matching no family panics (`todo!`) rather
than failing with an error. -/
theorem claim7_operator_fallback (name : String) (attrs : List (String × String))
    (children : List XNode)
    (h : name ∉ ["string", "double", "int", "bool", "const", "matrix", "name"]) :
    parseExpr (.element name attrs children) =
      specOperatorInterp name (parseExprList children) := by
  simp only [List.mem_cons, List.mem_singleton, not_or] at h
  obtain ⟨h1, h2, h3, h4, h5, h6, h7, -⟩ := h
  rw [parseExpr]
  split
  all_goals try (rename_i heq; rw [heq]; try rfl)
  all_goals intro hh
  all_goals
    first
      | exact absurd hh h1
      | exact absurd hh h2
      | exact absurd hh h3
      | exact absurd hh h4
      | exact absurd hh h5
      | exact absurd hh h6
      | exact absurd hh h7

theorem claim7_witness :
    ("and" ∉ ["string", "double", "int", "bool", "const", "matrix", "name"])
    ∧ parseExpr (.element "and" []
        [.element "bool" [] [.text "true"], .element "bool" [] [.text "false"]]) =
      specOperatorInterp "and" (parseExprList
        [.element "bool" [] [.text "true"], .element "bool" [] [.text "false"]]) :=
  ⟨by decide,
   claim7_operator_fallback "and" []
     [.element "bool" [] [.text "true"], .element "bool" [] [.text "false"]] (by decide)⟩

/-- C8 counterexample: the tree-walk parser successfully parses a matrix
element holding a single sub-expression — the fixed four-children shape is
not enforced on that path. -/
theorem claim8_counterexample :
    parseExpr (.element "matrix" [] [.element "double" [] [.text "1"]]) =
      .ok (.matrix [.simple (.double ⟨"1"⟩)]) := rfl

/-- C8 as amended: the streaming parser's matrix case reads exactly four
double children into the fixed-size matrix value (and fails with an
unexpected-eof error when only three are present before the input ends),
while the tree-walk parser's matrix case collects however many element
children the node has, without enforcing the count of four. -/
theorem claim8_matrix_arity :
    (∀ attrs children es, parseExpr (.element "matrix" attrs children) = .ok (.matrix es) →
      es.length = (children.filter XNode.isElement).length)
    ∧ readValue mEvs4 = .ok (.matrix4 ⟨"1"⟩ ⟨"2"⟩ ⟨"3"⟩ ⟨"4"⟩, [.endTag "matrix"])
    ∧ readValue mEvs3 = .err (.xml (.unexpectedEof "Expect double")) := by
  refine ⟨fun attrs children es h => ?_, rfl, rfl⟩
  rw [parseExpr] at h
  cases hl : parseExprList children <;> rw [hl] at h <;> cases h
  exact parseExprList_length children es hl

theorem claim8_witness :
    parseExpr (.element "matrix" [] [.element "double" [] [.text "0"]]) =
      .ok (.matrix [.simple (.double ⟨"0"⟩)])
    ∧ ([Expression.simple (.double ⟨"0"⟩)]).length =
      (([XNode.element "double" [] [.text "0"]]).filter XNode.isElement).length :=
  ⟨rfl,
   claim8_matrix_arity.1 [] [.element "double" [] [.text "0"]]
     [.simple (.double ⟨"0"⟩)] rfl⟩

/-- C9: reaching end-of-input inside a `match` element's own child loop
returns the accumulated tests and edits as a successful partial match (shown
both for an arbitrary accumulator state and for a concrete input whose one
test is kept), whereas `read_config` treats end-of-input before its closing
tag as a fatal unexpected-eof error. -/
theorem claim9_match_eof_vs_config_eof :
    (∀ fuel ret, readMatchLoop (fuel + 1) ret [] = .ok (ret, []))
    ∧ (∀ fuel c, readConfigLoop (fuel + 1) c [] =
        .err (.xml (.unexpectedEof "Expected config")))
    ∧ readMatchLoop 3 Match.default c9Evs =
      .ok ({ Match.default with
              tests := [{ Test.default with
                           value := ⟨.family, .simple (.string "serif")⟩ }] }, []) :=
  ⟨fun _ _ => rfl, fun _ _ => rfl, rfl⟩

/-- C10: the include element's `ignore_missing` attribute is matched inline
against exactly the texts "yes" and "no"; any other text makes the attribute
step — and `read_document` — fail with `InvalidFormat`, never with the
generic coercion's "Unknown variant" error. -/
theorem claim10_ignore_missing_inline :
    (∀ inc v, applyIncludeAttr inc ("ignore_missing", v) =
        if v = "yes" then .ok { inc with ignoreMissing := true }
        else if v = "no" then .ok { inc with ignoreMissing := false }
        else .error .invalidFormat)
    ∧ (∀ inc v, isUnknownVariantOut (applyIncludeAttr inc ("ignore_missing", v)) = false)
    ∧ readDocument [.start "fontconfig" [], .start "include" [("ignore_missing", "maybe")]] =
      .err .invalidFormat := by
  refine ⟨fun inc v => rfl, fun inc v => ?_, rfl⟩
  by_cases h1 : v = "yes"
  · simp [applyIncludeAttr, isUnknownVariantOut, h1]
  · by_cases h2 : v = "no" <;> simp [applyIncludeAttr, isUnknownVariantOut, h1, h2]
